import Mathlib

/-!
Verification of the session and transfer layer of the OpsBot backend.

This file gives a shallow embedding, in Lean, of the data model and the
operations of the SFTP transfer manager and the SSH session registry
(src/backend/src/services/sftp_service.rs, ssh_service.rs and the command
layer src/backend/src/commands/sftp.rs), and proves properties of the
embedded operations.

Conventions of the embedding:
- byte buffers (Rust Vec<u8> / &[u8]) are List Nat;
- u32/u64/usize counters are Nat (no arithmetic here can overflow a u64
  in the modelled executions, and Rust panics on overflow in debug mode);
- the concurrent HashMaps behind RwLock are association lists
  List (String × _); every map operation of the source holds the lock for
  the whole operation, so each one is modelled as a pure function on the
  list;
- a tokio_util CancellationToken consulted once before each chunk write is
  modelled as the function cancelAt : Nat → Bool giving the answer of the
  check made before chunk i (an actual token is monotone in time; the
  model is more general);
- fallible operations are Except String _; operations of the source that
  always return Ok are total functions into Except that always produce
  Except.ok.
-/

/-- Transfer task status, from models/sftp.rs (enum TransferStatus). -/
inductive TransferStatus
  | Pending
  | InProgress
  | Paused
  | Completed
  | Failed
  | Cancelled
deriving DecidableEq, Repr

/-- Transfer direction, from models/sftp.rs (enum TransferDirection). -/
inductive TransferDirection
  | Upload
  | Download
deriving DecidableEq, Repr

/-- Transfer task record, from models/sftp.rs (struct TransferTask). -/
structure TransferTask where
  id : String
  session_id : String
  filename : String
  local_path : String
  remote_path : String
  direction : TransferDirection
  total : Nat
  transferred : Nat
  speed : Nat
  status : TransferStatus
  error : Option String
deriving DecidableEq, Repr

/-- Directory entry record, from models/sftp.rs (struct FileEntry). -/
structure FileEntry where
  name : String
  path : String
  is_dir : Bool
  size : Nat
  modified : String
  permissions : String
  owner : String
  group : String
deriving DecidableEq, Repr

/-- SSH session status, from models/ssh.rs (enum SessionStatus). -/
inductive SessionStatus
  | Connecting
  | Connected
  | Disconnected
  | Error
deriving DecidableEq, Repr

/-- SftpService.cancel_transfer (sftp_service.rs:389-401): trigger the
cancellation token of the task if one is present (the token flag becomes
true), then set the status of the task with the given id to Cancelled.
Neither update consults the current state of its entry. Returns the pair
(token table, transfer table) after the call. -/
def cancel_transfer (cancel_tokens : List (String × Bool))
    (transfers : List (String × TransferTask)) (task_id : String) :
    List (String × Bool) × List (String × TransferTask) :=
  (cancel_tokens.map (fun p => if p.1 = task_id then (p.1, true) else p),
   transfers.map (fun p =>
     if p.1 = task_id then (p.1, { p.2 with status := TransferStatus.Cancelled }) else p))

/-- SftpService.update_transfer (sftp_service.rs:420-432): overwrite the
transferred, speed and status fields of the task with the given id,
unconditionally. -/
def update_transfer (transfers : List (String × TransferTask)) (task_id : String)
    (transferred speed : Nat) (status : TransferStatus) : List (String × TransferTask) :=
  transfers.map (fun p =>
    if p.1 = task_id then
      (p.1, { p.2 with transferred := transferred, speed := speed, status := status })
    else p)

/-- Status pattern of the retain predicate of cleanup_transfers:
matches TransferStatus::Completed | TransferStatus::Cancelled. -/
def swept_status : TransferStatus → Bool
  | TransferStatus.Completed => true
  | TransferStatus.Cancelled => true
  | _ => false

/-- SftpService.cleanup_transfers (sftp_service.rs:434-443): retain every
task such that its session differs from the given one, or its status does
not match Completed | Cancelled. -/
def cleanup_transfers (transfers : List (String × TransferTask)) (session_id : String) :
    List (String × TransferTask) :=
  transfers.filter (fun p => p.2.session_id != session_id || !swept_status p.2.status)

/-- SshService.disconnect (ssh_service.rs:464-483): remove the session
from the registry; when an entry was present its channel and handle are
closed (errors of the closes are discarded). The function returns Ok in
every case, also for an absent identifier. -/
def disconnect (sessions : List (String × SessionStatus)) (session_id : String) :
    Except String (List (String × SessionStatus)) :=
  Except.ok (sessions.filter (fun p => p.1 != session_id))

/-- SshService.is_connected (ssh_service.rs:495-503): look the session up
and test its status against Connected; an absent identifier gives false. -/
def is_connected (sessions : List (String × SessionStatus)) (session_id : String) : Bool :=
  ((sessions.lookup session_id).map (fun st => st == SessionStatus.Connected)).getD false

/-- Case-folding used by the list_dir comparator: Rust
name.to_lowercase(), modelled character by character over the string
data. -/
def lower_name (s : String) : String := String.mk (s.data.map Char.toLower)

/-- The sort_by comparator of SftpService.list_dir (sftp_service.rs:121-127)
as a boolean "less or equal": cmp(a, b) ≠ Greater. Directories sort before
files; two entries of the same kind compare by case-folded name. -/
def entry_cmp_le (a b : FileEntry) : Bool :=
  match a.is_dir, b.is_dir with
  | true, false => true
  | false, true => false
  | _, _ => decide (lower_name a.name ≤ lower_name b.name)

/-- The sorting step of SftpService.list_dir: Vec::sort_by with the
comparator above. Rust sort_by is a stable sort, and a stable sort
ordered by a total preorder is extensionally unique, so the stable
List.mergeSort is the same function. -/
def list_dir_sort (files : List FileEntry) : List FileEntry :=
  files.mergeSort entry_cmp_le

/-- format_permissions (sftp_service.rs:446-467), Some branch: the nine
characters pushed for the owner, group and other permission bits. -/
def format_permissions_chars (m : Nat) : List Char :=
  [if m &&& 0o400 ≠ 0 then 'r' else '-',
   if m &&& 0o200 ≠ 0 then 'w' else '-',
   if m &&& 0o100 ≠ 0 then 'x' else '-',
   if m &&& 0o40 ≠ 0 then 'r' else '-',
   if m &&& 0o20 ≠ 0 then 'w' else '-',
   if m &&& 0o10 ≠ 0 then 'x' else '-',
   if m &&& 0o4 ≠ 0 then 'r' else '-',
   if m &&& 0o2 ≠ 0 then 'w' else '-',
   if m &&& 0o1 ≠ 0 then 'x' else '-']

/-- format_permissions (sftp_service.rs:446-467). -/
def format_permissions : Option Nat → String
  | some m => String.mk (format_permissions_chars m)
  | none => "---------"

/-- The nine letters of the full rwxrwxrwx permission string, position by
position. -/
def rwx_template : List Char := ['r', 'w', 'x', 'r', 'w', 'x', 'r', 'w', 'x']

/-- Two-digit zero padding, as chrono renders %m, %d, %H and %M. -/
def pad2 (n : Nat) : String := if n < 10 then "0" ++ toString n else toString n

/-- Four-digit zero padding, as chrono renders %Y for the years reachable
from a u32 timestamp. -/
def pad4 (n : Nat) : String :=
  if n < 10 then "000" ++ toString n
  else if n < 100 then "00" ++ toString n
  else if n < 1000 then "0" ++ toString n
  else toString n

/-- Civil date (year, month, day) of a count of days since 1970-01-01,
for the proleptic Gregorian calendar chrono uses (era decomposition over
the 400-year cycle of 146097 days). -/
def civil_from_days (z : Nat) : Nat × Nat × Nat :=
  let zz := z + 719468
  let era := zz / 146097
  let doe := zz % 146097
  let yoe := (doe - doe / 1460 + doe / 36524 - doe / 146097) / 365
  let y := yoe + era * 400
  let doy := doe - (365 * yoe + yoe / 4 - yoe / 100)
  let mp := (5 * doy + 2) / 153
  let d := doy - (153 * mp + 2) / 5 + 1
  let m := if mp < 10 then mp + 3 else mp - 9
  (if m ≤ 2 then y + 1 else y, m, d)

/-- Rendering of DateTime::format("%Y-%m-%d %H:%M") for a UTC datetime
built from ts seconds after the epoch. -/
def format_ymd_hm (ts : Nat) : String :=
  let days := ts / 86400
  let rem := ts % 86400
  let c := civil_from_days days
  pad4 c.1 ++ "-" ++ pad2 c.2.1 ++ "-" ++ pad2 c.2.2 ++ " " ++
    pad2 (rem / 3600) ++ ":" ++ pad2 (rem % 3600 / 60)

/-- format_timestamp (sftp_service.rs:469-479). DateTime::from_timestamp
of chrono returns Some for every u32 input (its range check fails only
beyond year 262143), so the Some branch always formats. -/
def format_timestamp : Option Nat → String
  | some ts => format_ymd_hm ts
  | none => "-"

/-- SftpService.read_file (sftp_service.rs:191-205): a buffer of the size
the stat metadata reports (0 when the size is missing) is allocated as
zeroes, one read call fills its first bytes_read bytes with the start of
the actual file content, and the buffer is returned whole. The parameter
bytes_read is the count the single read returned; the real read
guarantees bytes_read ≤ buffer length and bytes_read ≤ content length. -/
def read_file (meta_size : Option Nat) (content : List Nat) (bytes_read : Nat) : List Nat :=
  content.take bytes_read ++ List.replicate (meta_size.getD 0 - bytes_read) 0

/-- SftpService.get_remote_file_size (sftp_service.rs:306-312): the size
stat reports when the path names an existing non-directory entry, 0 in
every other case (absent file, directory, stat error). The remote file
system is modelled as Option (is_dir, content), with the stat size of a
file equal to its content length. -/
def get_remote_file_size : Option (Bool × List Nat) → Nat
  | some (false, content) => content.length
  | _ => 0

/-- The resume-offset computation of sftp_upload (commands/sftp.rs:372-385):
with resume.unwrap_or(false) set, resume from the remote size exactly when
it is positive and strictly below the local total; otherwise from 0. -/
def upload_start_offset (resume : Option Bool) (remote_size total : Nat) : Nat :=
  if resume.getD false then
    if 0 < remote_size ∧ remote_size < total then remote_size else 0
  else 0

/-- Fuel-driven splitting of a byte list into chunks of cs bytes: the
translation of slice::chunks(cs) used by the chunk loop. The fuel is the
list length; since each step consumes min cs len ≥ 1 elements, the fuel
never runs out for cs ≥ 1 (cs = 0 panics in Rust and is never used:
the only call passes 64 KiB). -/
def chunks_fuel : Nat → Nat → List Nat → List (List Nat)
  | _, _, [] => []
  | 0, _, _ :: _ => []
  | fuel + 1, cs, x :: xs => ((x :: xs).take cs) :: chunks_fuel fuel cs ((x :: xs).drop cs)

/-- data.chunks(cs) of Rust: all chunks have cs bytes except a final
shorter one. -/
def list_chunks (cs : Nat) (l : List Nat) : List (List Nat) :=
  chunks_fuel l.length cs l

/-- Result of the chunk-writing loop of write_file_chunked_resume:
whether the loop ran to the end (Ok(true)) or stopped at a cancellation
check (Ok(false)); the remote file content after the loop; the final
value of the written counter; the values passed to the progress
callback, in call order. -/
structure ChunkWriteResult where
  completed : Bool
  content : List Nat
  written : Nat
  progress : List Nat
deriving DecidableEq, Repr

/-- The for-loop of write_file_chunked_resume (sftp_service.rs:291-300):
before chunk i the cancellation token is consulted (cancelAt i); if
cancelled the loop returns not-completed at once; otherwise the chunk is
appended to the file, the written counter advances by the chunk length
and the progress callback receives the new counter. -/
def write_chunks_loop (cancelAt : Nat → Bool) :
    List (List Nat) → Nat → List Nat → Nat → ChunkWriteResult
  | [], _, content, written => ⟨true, content, written, []⟩
  | c :: rest, i, content, written =>
    if cancelAt i then ⟨false, content, written, []⟩
    else
      let r := write_chunks_loop cancelAt rest (i + 1) (content ++ c) (written + c.length)
      { r with progress := (written + c.length) :: r.progress }

/-- SftpService.write_file_chunked_resume (sftp_service.rs:260-304): for a
positive start offset the remote file is opened WRITE|APPEND, so the
existing remote bytes stay in place and writes land after them; for
offset 0 the file is created fresh (truncated to empty). The loop writes
data[start_offset..] in chunks of chunkSize bytes with the written
counter starting at start_offset. The slice data[start_offset..] requires
start_offset ≤ data.length in Rust (it panics otherwise); the only
caller guarantees it, and List.drop is total. -/
def write_file_chunked_resume (remoteInit data : List Nat) (chunkSize startOffset : Nat)
    (cancelAt : Nat → Bool) : ChunkWriteResult :=
  let initContent := if startOffset > 0 then remoteInit else []
  write_chunks_loop cancelAt (list_chunks chunkSize (data.drop startOffset)) 0
    initContent startOffset

/-- Offset a concrete sftp_upload call resumes from: the start-offset rule
applied to the stat size of the remote path and the local length. -/
def upload_offset_of (local_data : List Nat) (remote : Option (Bool × List Nat))
    (resume : Option Bool) : Nat :=
  upload_start_offset resume (get_remote_file_size remote) local_data.length

/-- Content of the modelled remote file, empty when absent: the bytes
the chunk writer would append after when it opens for append. -/
def upload_remote_init : Option (Bool × List Nat) → List Nat
  | some p => p.2
  | none => []

/-- Remote content the chunk writer starts from inside sftp_upload: the
existing remote bytes when the upload resumes (offset positive), the
empty file otherwise (create truncates). -/
def upload_init_content (remote : Option (Bool × List Nat)) (start_offset : Nat) : List Nat :=
  if start_offset > 0 then upload_remote_init remote else []

/-- Observable outcome of one sftp_upload command execution. -/
structure UploadRun where
  total : Nat
  start_offset : Nat
  callback_values : List Nat
  completed : Bool
  final_status : TransferStatus
  final_transferred : Nat
  remote_content : List Nat
deriving DecidableEq, Repr

/-- The sftp_upload command (commands/sftp.rs:355-540) on the executions
that reach a terminal Ok outcome (the I/O-error path, which ends in
Failed, is the only one not modelled, because the pure chunk writer
cannot fail): read the local file, compute the resume offset, run the
chunked writer with a 64 KiB chunk size, then on Ok(true) record status
Completed and emit a final progress event carrying transferred = total,
and on Ok(false) record status Cancelled, emit transferred = 0, and leave
the partial remote file in place. The initial progress emission carries
the start offset; callback_values are the values the progress callback
then received. -/
def sftp_upload (local_data : List Nat) (remote : Option (Bool × List Nat))
    (resume : Option Bool) (cancelAt : Nat → Bool) : UploadRun :=
  let total := local_data.length
  let start_offset := upload_offset_of local_data remote resume
  let remote_init := upload_remote_init remote
  let w := write_file_chunked_resume remote_init local_data 65536 start_offset cancelAt
  if w.completed then
    ⟨total, start_offset, w.progress, true, TransferStatus.Completed, total, w.content⟩
  else
    ⟨total, start_offset, w.progress, false, TransferStatus.Cancelled, 0, w.content⟩

/-- A transfer task already in the terminal state Completed, used as a
concrete input below. -/
def completedTask : TransferTask :=
  { id := "t", session_id := "s", filename := "f", local_path := "/tmp/f",
    remote_path := "/srv/f", direction := TransferDirection.Upload, total := 100,
    transferred := 100, speed := 0, status := TransferStatus.Completed, error := none }

/-- Directory entry named with a lower-case letter, used as a concrete
input below. -/
def entryLowerA : FileEntry :=
  { name := "a", path := "/d/a", is_dir := false, size := 0, modified := "-",
    permissions := "---------", owner := "", group := "" }

/-- Directory entry named with the same letter upper-case, used as a
concrete input below. -/
def entryUpperA : FileEntry :=
  { name := "A", path := "/d/A", is_dir := false, size := 0, modified := "-",
    permissions := "---------", owner := "", group := "" }

/-- Cumulative sums the progress callback receives when no check
cancels: after each chunk, the counter so far plus that chunk length. -/
def cum_sums (w : Nat) : List (List Nat) → List Nat
  | [] => []
  | c :: rest => (w + c.length) :: cum_sums (w + c.length) rest

/-- Flattening the first k chunks recovers the first k * cs bytes, for a
positive chunk size cs + 1 and enough fuel. -/
theorem chunks_fuel_take_flatten (cs : Nat) :
    ∀ (fuel : Nat) (k : Nat) (l : List Nat), l.length ≤ fuel →
      ((chunks_fuel fuel (cs + 1) l).take k).flatten = l.take (k * (cs + 1)) := by
  intro fuel
  induction fuel with
  | zero =>
    intro k l hl
    rw [List.length_eq_zero.mp (Nat.le_zero.mp hl)]
    simp [chunks_fuel]
  | succ fuel ih =>
    intro k l hl
    cases l with
    | nil => simp [chunks_fuel]
    | cons x xs =>
      cases k with
      | zero => simp
      | succ k =>
        rw [chunks_fuel]
        simp only [List.take_succ_cons, List.flatten_cons]
        have hd : ((x :: xs).drop (cs + 1)).length ≤ fuel := by
          simp only [List.length_drop, List.length_cons]
          simp only [List.length_cons] at hl
          omega
        rw [ih k _ hd]
        rw [Nat.succ_mul, Nat.add_comm (k * (cs + 1)), List.take_add]
        simp [List.take_succ_cons]

/-- There are never more chunks than bytes, for a positive chunk size. -/
theorem chunks_fuel_length_le (cs : Nat) :
    ∀ (fuel : Nat) (l : List Nat), l.length ≤ fuel →
      (chunks_fuel fuel (cs + 1) l).length ≤ l.length := by
  intro fuel
  induction fuel with
  | zero =>
    intro l hl
    rw [List.length_eq_zero.mp (Nat.le_zero.mp hl)]
    simp [chunks_fuel]
  | succ fuel ih =>
    intro l hl
    cases l with
    | nil => simp [chunks_fuel]
    | cons x xs =>
      rw [chunks_fuel]
      have hd : ((x :: xs).drop (cs + 1)).length ≤ fuel := by
        simp only [List.length_drop, List.length_cons]
        simp only [List.length_cons] at hl
        omega
      have := ih _ hd
      simp only [List.length_cons, List.length_drop] at *
      omega

/-- Flattening all chunks recovers the list, for a positive chunk size. -/
theorem list_chunks_flatten (cs : Nat) (l : List Nat) :
    (list_chunks (cs + 1) l).flatten = l := by
  have h := chunks_fuel_take_flatten cs l.length l.length l le_rfl
  rw [List.take_of_length_le (chunks_fuel_length_le cs l.length l le_rfl)] at h
  rw [list_chunks, h, List.take_of_length_le]
  calc l.length = l.length * 1 := by omega
    _ ≤ l.length * (cs + 1) := Nat.mul_le_mul_left _ (by omega)

/-- Restatement of chunks_fuel_take_flatten for list_chunks. -/
theorem list_chunks_take_flatten (cs : Nat) (k : Nat) (l : List Nat) :
    ((list_chunks (cs + 1) l).take k).flatten = l.take (k * (cs + 1)) :=
  chunks_fuel_take_flatten cs l.length k l le_rfl

/-- When every cancellation check answers no, the loop runs to the end:
it reports completed, appends every chunk, advances the counter by the
total chunk length, and calls the progress callback with the cumulative
sums. -/
theorem write_chunks_loop_no_cancel (cancelAt : Nat → Bool)
    (h : ∀ j, cancelAt j = false) :
    ∀ (L : List (List Nat)) (i : Nat) (content : List Nat) (w : Nat),
      write_chunks_loop cancelAt L i content w =
        ⟨true, content ++ L.flatten, w + L.flatten.length, cum_sums w L⟩ := by
  intro L
  induction L with
  | nil => intro i content w; simp [write_chunks_loop, cum_sums]
  | cons c rest ih =>
    intro i content w
    simp only [write_chunks_loop, h, Bool.false_eq_true, if_false, ih, cum_sums,
      List.flatten_cons, List.append_assoc, List.length_append]
    simp [Nat.add_assoc]

/-- When some check in range answers yes, the loop stops at the first
such check: it reports not-completed and has appended only the chunks
before that check. -/
theorem write_chunks_loop_cancelled (cancelAt : Nat → Bool) :
    ∀ (L : List (List Nat)) (i : Nat) (content : List Nat) (w : Nat) (j : Nat),
      i ≤ j → j < i + L.length → cancelAt j = true →
      ∃ k, k ≤ j - i ∧
        (write_chunks_loop cancelAt L i content w).completed = false ∧
        (write_chunks_loop cancelAt L i content w).content = content ++ (L.take k).flatten := by
  intro L
  induction L with
  | nil => intro i content w j h1 h2 h3; simp at h2; omega
  | cons c rest ih =>
    intro i content w j h1 h2 h3
    by_cases hc : cancelAt i = true
    · exact ⟨0, by omega, by simp [write_chunks_loop, hc], by simp [write_chunks_loop, hc]⟩
    · have hij : i + 1 ≤ j := by
        rcases Nat.eq_or_lt_of_le h1 with h | h
        · exact absurd (h ▸ h3) hc
        · omega
      have hj2 : j < (i + 1) + rest.length := by simp at h2; omega
      obtain ⟨k, hk, hcmp, hcont⟩ := ih (i + 1) (content ++ c) (w + c.length) j hij hj2 h3
      refine ⟨k + 1, by omega, ?_, ?_⟩
      · simp only [write_chunks_loop, hc, if_neg, Bool.false_eq_true]
        simpa using hcmp
      · simp only [write_chunks_loop, hc, Bool.false_eq_true, if_false]
        simp only [List.take_succ_cons, List.flatten_cons, ← List.append_assoc]
        simpa using hcont

/-- The counter value at entry followed by the callback values is always
a non-decreasing sequence, whether or not a check cancels the loop. -/
theorem write_chunks_loop_chain (cancelAt : Nat → Bool) :
    ∀ (L : List (List Nat)) (i : Nat) (content : List Nat) (w : Nat),
      List.Chain' (· ≤ ·) (w :: (write_chunks_loop cancelAt L i content w).progress) := by
  intro L
  induction L with
  | nil => intro i content w; simp [write_chunks_loop]
  | cons c rest ih =>
    intro i content w
    by_cases hc : cancelAt i = true
    · simp [write_chunks_loop, hc]
    · simp only [write_chunks_loop, hc, Bool.false_eq_true, if_false]
      have := ih (i + 1) (content ++ c) (w + c.length)
      exact List.Chain'.cons (by omega) this

/-- The list_dir comparator is transitive. -/
theorem entry_cmp_le_trans (a b c : FileEntry) :
    entry_cmp_le a b = true → entry_cmp_le b c = true → entry_cmp_le a c = true := by
  unfold entry_cmp_le
  cases ha : a.is_dir <;> cases hb : b.is_dir <;> cases hc : c.is_dir <;>
    simp_all <;> intro h1 h2 <;> exact le_trans h1 h2

/-- The list_dir comparator is total. -/
theorem entry_cmp_le_total (a b : FileEntry) :
    (entry_cmp_le a b || entry_cmp_le b a) = true := by
  unfold entry_cmp_le
  cases ha : a.is_dir <;> cases hb : b.is_dir <;> simp_all <;> exact le_total _ _

/-- Looking a key up after filtering that key out finds nothing. -/
theorem lookup_filter_ne (sessions : List (String × SessionStatus)) (sid : String) :
    (sessions.filter (fun p => p.1 != sid)).lookup sid = none := by
  induction sessions with
  | nil => rfl
  | cons p rest ih =>
    by_cases h : p.1 = sid
    · simp [List.filter_cons, h, ih]
    · have h2 : (sid == p.1) = false := by
        simp [Ne.symm h]
      simp [List.filter_cons, List.lookup, h, h2, ih]

/-- A bit-mask test against a power of two is the corresponding bit. -/
theorem and_pow_ne_zero_iff (m k : Nat) : (m &&& 2 ^ k ≠ 0) ↔ m.testBit k = true := by
  rcases h : m.testBit k <;> simp [Nat.and_two_pow, h]

/-- Claim C1, counterexample: a task whose status is the terminal
Completed transitions out of it when cancel_transfer is called on its id
afterwards — the transfer table then holds it with status Cancelled. -/
theorem cancel_transfer_escapes_completed :
    completedTask.status = TransferStatus.Completed ∧
    (cancel_transfer [] [("t", completedTask)] "t").2 =
      [("t", { completedTask with status := TransferStatus.Cancelled })] ∧
    TransferStatus.Cancelled ≠ TransferStatus.Completed := by
  refine ⟨rfl, by decide, by decide⟩

/-- Claim C1, amended: cancel_transfer and update_transfer never consult
the current status of a task. cancel_transfer sets the status of the task
with the given id to Cancelled whatever it was (so a Completed or Failed
task transitions to Cancelled), update_transfer overwrites transferred,
speed and status with its arguments whatever the prior status was, and
tasks with other ids are left untouched by both; of the terminal states
only Cancelled is stable under cancel_transfer. -/
theorem transfer_status_overwrite (tokens : List (String × Bool))
    (transfers : List (String × TransferTask)) (tid : String) (tr sp : Nat)
    (st : TransferStatus) (p : String × TransferTask) (hp : p ∈ transfers) :
    (p.1 ≠ tid → p ∈ (cancel_transfer tokens transfers tid).2 ∧
      p ∈ update_transfer transfers tid tr sp st) ∧
    (p.1 = tid →
      (tid, { p.2 with status := TransferStatus.Cancelled }) ∈
        (cancel_transfer tokens transfers tid).2 ∧
      (tid, { p.2 with transferred := tr, speed := sp, status := st }) ∈
        update_transfer transfers tid tr sp st) := by
  constructor
  · intro h
    exact ⟨List.mem_map.mpr ⟨p, hp, by simp [h]⟩, List.mem_map.mpr ⟨p, hp, by simp [h]⟩⟩
  · intro h
    exact ⟨List.mem_map.mpr ⟨p, hp, by simp [h]⟩, List.mem_map.mpr ⟨p, hp, by simp [h]⟩⟩

/-- Claim C1, witness: the amended theorem applied to the one-task table
holding the Completed task. -/
theorem transfer_status_overwrite_witness :
    ("t", { completedTask with status := TransferStatus.Cancelled }) ∈
      (cancel_transfer [] [("t", completedTask)] "t").2 ∧
    ("t", { completedTask with transferred := 5, speed := 6, status := TransferStatus.Failed }) ∈
      update_transfer [("t", completedTask)] "t" 5 6 TransferStatus.Failed :=
  (transfer_status_overwrite [] [("t", completedTask)] "t" 5 6 TransferStatus.Failed
    ("t", completedTask) (by simp)).2 rfl

/-- Claim C2: for a resume-requested upload, the start offset is the
remote size exactly on the strict window 0 < remote < total; at or above
the total, and for an absent remote file (stat size 0), the offset is 0;
and a nonzero offset can only be the remote size inside that window. -/
theorem resume_offset_rule (remote : Option (Bool × List Nat)) (total r : Nat)
    (hr : r = get_remote_file_size remote) :
    (0 < r ∧ r < total → upload_start_offset (some true) r total = r) ∧
    (¬(0 < r ∧ r < total) → upload_start_offset (some true) r total = 0) ∧
    (remote = none → upload_start_offset (some true) r total = 0) ∧
    (upload_start_offset (some true) r total ≠ 0 →
      upload_start_offset (some true) r total = r ∧ 0 < r ∧ r < total) := by
  refine ⟨?_, ?_, ?_, ?_⟩
  · intro h
    simp [upload_start_offset, h]
  · intro h
    simp [upload_start_offset, h]
  · intro hn
    subst hn
    simp [get_remote_file_size] at hr
    subst hr
    simp [upload_start_offset]
  · intro h
    by_cases hc : 0 < r ∧ r < total
    · exact ⟨by simp [upload_start_offset, hc], hc.1, hc.2⟩
    · exact absurd (by simp [upload_start_offset, hc]) h

/-- Claim C2, witness: the rule applied to a 2-byte remote file below a
5-byte local file (resume from 2) and a 7-byte remote file at or above it
(fall back to offset 0). -/
theorem resume_offset_rule_witness :
    upload_start_offset (some true) 2 5 = 2 ∧ upload_start_offset (some true) 7 5 = 0 :=
  ⟨(resume_offset_rule (some (false, [9, 9])) 5 2 rfl).1 (by decide),
   (resume_offset_rule (some (false, [9, 9, 9, 9, 9, 9, 9])) 5 7 rfl).2.1 (by decide)⟩

/-- Claim C6: cleanup_transfers keeps exactly the tasks that do not both
belong to the session and carry status Completed or Cancelled (so every
Failed, Pending, InProgress — and Paused — task survives), and the
sublist of tasks of other sessions is unchanged. -/
theorem cleanup_transfers_selective (transfers : List (String × TransferTask)) (sid : String) :
    (∀ p, p ∈ cleanup_transfers transfers sid ↔
      p ∈ transfers ∧ ¬(p.2.session_id = sid ∧
        (p.2.status = TransferStatus.Completed ∨ p.2.status = TransferStatus.Cancelled))) ∧
    (cleanup_transfers transfers sid).filter (fun p => p.2.session_id != sid) =
      transfers.filter (fun p => p.2.session_id != sid) := by
  constructor
  · intro p
    rw [cleanup_transfers, List.mem_filter]
    refine and_congr_right (fun _ => ?_)
    cases h : p.2.status <;>
      simp [swept_status, h, bne_iff_ne]
  · rw [cleanup_transfers, List.filter_filter]
    refine List.filter_congr ?_
    intro a _
    cases h1 : (a.2.session_id != sid) <;> cases h2 : swept_status a.2.status <;>
      simp [h1, h2]

/-- Claim C8: disconnect answers Ok on every registry, present or absent
identifier alike; the resulting registry holds no entry under that
identifier, and is_connected on it answers false. -/
theorem disconnect_then_not_connected (sessions : List (String × SessionStatus)) (sid : String) :
    disconnect sessions sid = Except.ok (sessions.filter (fun p => p.1 != sid)) ∧
    (∀ p, p ∈ sessions.filter (fun p => p.1 != sid) → p.1 ≠ sid) ∧
    is_connected (sessions.filter (fun p => p.1 != sid)) sid = false := by
  refine ⟨rfl, ?_, ?_⟩
  · intro p hp
    have h := (List.mem_filter.mp hp).2
    simpa using h
  · simp [is_connected, lookup_filter_ne]

/-- Claim C8, witness: a connected one-session registry after disconnect
of that session reports not connected. -/
theorem disconnect_then_not_connected_witness :
    disconnect [("a", SessionStatus.Connected)] "a" =
      Except.ok (([("a", SessionStatus.Connected)] :
        List (String × SessionStatus)).filter (fun p => p.1 != "a")) ∧
    is_connected (([("a", SessionStatus.Connected)] :
        List (String × SessionStatus)).filter (fun p => p.1 != "a")) "a" = false :=
  ⟨(disconnect_then_not_connected [("a", SessionStatus.Connected)] "a").1,
   (disconnect_then_not_connected [("a", SessionStatus.Connected)] "a").2.2⟩

/-- Claim C9: a present permission value renders as exactly nine
characters, position i carrying the letter of the rwxrwxrwx template when
bit 8 - i of the mode is set and a dash when it is not; a missing
permission value renders as nine dashes, and a missing timestamp renders
as the single dash placeholder. -/
theorem metadata_rendering (m : Nat) :
    (format_permissions (some m)).length = 9 ∧
    (∀ i, i < 9 → (format_permissions_chars m).getD i ' ' =
      if m.testBit (8 - i) then rwx_template.getD i ' ' else '-') ∧
    format_permissions none = "---------" ∧
    format_timestamp none = "-" := by
  refine ⟨rfl, ?_, rfl, rfl⟩
  intro i hi
  have h8 := and_pow_ne_zero_iff m 8
  have h7 := and_pow_ne_zero_iff m 7
  have h6 := and_pow_ne_zero_iff m 6
  have h5 := and_pow_ne_zero_iff m 5
  have h4 := and_pow_ne_zero_iff m 4
  have h3 := and_pow_ne_zero_iff m 3
  have h2 := and_pow_ne_zero_iff m 2
  have h1 := and_pow_ne_zero_iff m 1
  have h0 := and_pow_ne_zero_iff m 0
  interval_cases i <;>
    simp only [format_permissions_chars, rwx_template, List.getD] <;>
    norm_num <;>
    split <;> simp_all

/-- Claim C9, witness: mode 0o754 renders with length nine and an r in
the first position (bit 8 set). -/
theorem metadata_rendering_witness :
    (format_permissions (some 0o754)).length = 9 ∧
    (format_permissions_chars 0o754).getD 0 ' ' =
      (if (0o754 : Nat).testBit 8 then rwx_template.getD 0 ' ' else '-') :=
  ⟨(metadata_rendering 0o754).1, (metadata_rendering 0o754).2.1 0 (by decide)⟩

/-- Claim C10: the buffer read_file returns always has the length the
stat metadata reported (0 when missing), its first bytes_read bytes are
the start of the actual content, and every position from bytes_read up to
the stat size holds the zero byte the allocation left there. -/
theorem read_file_stat_sized (meta_size : Option Nat) (content : List Nat) (n : Nat)
    (hsize : n ≤ meta_size.getD 0) (hcont : n ≤ content.length) :
    (read_file meta_size content n).length = meta_size.getD 0 ∧
    (read_file meta_size content n).take n = content.take n ∧
    (∀ i, n ≤ i → i < meta_size.getD 0 → (read_file meta_size content n).getD i 1 = 0) := by
  refine ⟨?_, ?_, ?_⟩
  · rw [read_file]
    simp [List.length_take]
    omega
  · rw [read_file, List.take_append_of_le_length (by simp [List.length_take]; omega)]
    simp [List.take_take]
  · intro i hi hlt
    rw [read_file]
    have hlen : (content.take n).length = n := by
      simp [List.length_take]
      omega
    rw [List.getD_append_right _ _ _ _ (by rw [hlen]; exact hi), hlen]
    rw [List.getD_eq_getElem?_getD, List.getElem?_replicate]
    have hx : i - n < meta_size.getD 0 - n := by omega
    simp [hx]

/-- Claim C10, witness: a stat size of 5 over a 3-byte file with a read
that returned 2 bytes yields a 5-byte buffer with a zero at position 3. -/
theorem read_file_stat_sized_witness :
    (read_file (some 5) [1, 2, 3] 2).length = 5 ∧
    (read_file (some 5) [1, 2, 3] 2).getD 3 1 = 0 :=
  ⟨(read_file_stat_sized (some 5) [1, 2, 3] 2 (by decide) (by decide)).1,
   (read_file_stat_sized (some 5) [1, 2, 3] 2 (by decide) (by decide)).2.2 3 (by decide) (by decide)⟩

/-- Claim C3, counterexample: a resumed upload with remote size R = 1,
local total T = 3, no cancellation and no error completes, yet its final
remote content differs from the local source, because the pre-existing
remote byte differs from the first local byte and append-mode writing
never revisits it. -/
theorem resume_not_byte_identical :
    get_remote_file_size (some (false, [9])) = 1 ∧
    (0 : Nat) < 1 ∧ 1 < ([5, 6, 7] : List Nat).length ∧
    (sftp_upload [5, 6, 7] (some (false, [9])) (some true) (fun _ => false)).completed = true ∧
    (sftp_upload [5, 6, 7] (some (false, [9])) (some true) (fun _ => false)).remote_content ≠
      [5, 6, 7] := by
  exact ⟨rfl, by decide, by decide, by decide, by decide⟩

/-- Claim C3, amended: a resumed upload with remote size R,
0 < R < local length, and no cancellation, opens for append and writes
exactly data[R..] after the existing remote bytes: it completes, the
final content is the remote prefix followed by data[R..], the written
counter ends at the local length, and the final content is byte-identical
to the local source exactly when the pre-existing R remote bytes equal
the first R local bytes. -/
theorem resume_write_correct (data rem : List Nat) (R : Nat) (cancelAt : Nat → Bool)
    (hlen : rem.length = R) (h0 : 0 < R) (hRT : R < data.length)
    (hnc : ∀ j, cancelAt j = false) :
    (write_file_chunked_resume rem data 65536 R cancelAt).completed = true ∧
    (write_file_chunked_resume rem data 65536 R cancelAt).content = rem ++ data.drop R ∧
    (write_file_chunked_resume rem data 65536 R cancelAt).written = data.length ∧
    ((write_file_chunked_resume rem data 65536 R cancelAt).content = data ↔
      rem = data.take R) := by
  have hu : write_file_chunked_resume rem data 65536 R cancelAt =
      write_chunks_loop cancelAt (list_chunks 65536 (data.drop R)) 0 rem R := by
    rw [write_file_chunked_resume]
    simp [h0]
  have hfl : (list_chunks 65536 (data.drop R)).flatten = data.drop R := by
    have h := list_chunks_flatten 65535 (data.drop R)
    norm_num at h
    exact h
  rw [hu, write_chunks_loop_no_cancel cancelAt hnc]
  refine ⟨rfl, by simp [hfl], ?_, ?_⟩
  · simp only [hfl, List.length_drop]
    omega
  · simp only [hfl]
    constructor
    · intro h
      have ht : (rem ++ data.drop R).take rem.length = rem := List.take_left rem _
      rw [h, hlen] at ht
      exact ht.symm
    · intro h
      rw [h, List.take_append_drop]

/-- Claim C3, witness: resuming [5,6,7] over the matching 1-byte remote
prefix [5] reproduces the local bytes with written counter 3. -/
theorem resume_write_correct_witness :
    (write_file_chunked_resume [5] [5, 6, 7] 65536 1 (fun _ => false)).content = [5, 6, 7] ∧
    (write_file_chunked_resume [5] [5, 6, 7] 65536 1 (fun _ => false)).written = 3 :=
  ⟨((resume_write_correct [5, 6, 7] [5] 1 (fun _ => false) rfl (by decide) (by decide)
      (fun _ => rfl)).2.2.2).mpr (by decide),
   (resume_write_correct [5, 6, 7] [5] 1 (fun _ => false) rfl (by decide) (by decide)
      (fun _ => rfl)).2.2.1⟩

/-- Claim C4: when the cancellation check before chunk i answers
cancelled (and chunk i exists), the upload returns the not-completed
value rather than an error, the task is then marked Cancelled, and the
remote file is left holding the initial content plus some k ≤ i full
chunks — no byte of chunk i or of any later chunk is written and the
partial file is not deleted. -/
theorem chunk_cancellation (local_data : List Nat) (remote : Option (Bool × List Nat))
    (resume : Option Bool) (cancelAt : Nat → Bool) (i : Nat)
    (hcan : cancelAt i = true)
    (hi : i < (list_chunks 65536
      (local_data.drop (upload_offset_of local_data remote resume))).length) :
    (sftp_upload local_data remote resume cancelAt).completed = false ∧
    (sftp_upload local_data remote resume cancelAt).final_status = TransferStatus.Cancelled ∧
    ∃ k, k ≤ i ∧
      (sftp_upload local_data remote resume cancelAt).remote_content =
        upload_init_content remote (upload_offset_of local_data remote resume) ++
          (local_data.drop (upload_offset_of local_data remote resume)).take (k * 65536) := by
  have hw : write_file_chunked_resume (upload_remote_init remote)
      local_data 65536 (upload_offset_of local_data remote resume) cancelAt =
      write_chunks_loop cancelAt
        (list_chunks 65536 (local_data.drop (upload_offset_of local_data remote resume))) 0
        (upload_init_content remote (upload_offset_of local_data remote resume))
        (upload_offset_of local_data remote resume) := rfl
  obtain ⟨k, hk, hcmp, hcont⟩ := write_chunks_loop_cancelled cancelAt
    (list_chunks 65536 (local_data.drop (upload_offset_of local_data remote resume))) 0
    (upload_init_content remote (upload_offset_of local_data remote resume))
    (upload_offset_of local_data remote resume) i (Nat.zero_le i) (by simpa using hi) hcan
  have htk : ((list_chunks 65536
      (local_data.drop (upload_offset_of local_data remote resume))).take k).flatten =
      (local_data.drop (upload_offset_of local_data remote resume)).take (k * 65536) := by
    have h := list_chunks_take_flatten 65535 k
      (local_data.drop (upload_offset_of local_data remote resume))
    norm_num at h
    exact h
  simp only [sftp_upload, hw, hcmp, Bool.false_eq_true, if_false]
  exact ⟨trivial, trivial, k, by omega, by rw [hcont, htk]⟩

/-- Claim C4, witness: a token already cancelled before the first chunk
makes a 2-byte upload stop not-completed with the task Cancelled. -/
theorem chunk_cancellation_witness :
    (sftp_upload [1, 2] none none (fun _ => true)).completed = false ∧
    (sftp_upload [1, 2] none none (fun _ => true)).final_status = TransferStatus.Cancelled :=
  ⟨(chunk_cancellation [1, 2] none none (fun _ => true) 0 rfl (by decide)).1,
   (chunk_cancellation [1, 2] none none (fun _ => true) 0 rfl (by decide)).2.1⟩

/-- Claim C5: for an upload that completes, the start offset followed by
the values the progress callback received is a non-decreasing sequence,
and the final progress event carries transferred equal to total. -/
theorem progress_monotone (local_data : List Nat) (remote : Option (Bool × List Nat))
    (resume : Option Bool) (cancelAt : Nat → Bool)
    (hc : (sftp_upload local_data remote resume cancelAt).completed = true) :
    List.Chain' (· ≤ ·) ((sftp_upload local_data remote resume cancelAt).start_offset ::
      (sftp_upload local_data remote resume cancelAt).callback_values) ∧
    (sftp_upload local_data remote resume cancelAt).final_transferred =
      (sftp_upload local_data remote resume cancelAt).total := by
  have hw : write_file_chunked_resume (upload_remote_init remote)
      local_data 65536 (upload_offset_of local_data remote resume) cancelAt =
      write_chunks_loop cancelAt
        (list_chunks 65536 (local_data.drop (upload_offset_of local_data remote resume))) 0
        (upload_init_content remote (upload_offset_of local_data remote resume))
        (upload_offset_of local_data remote resume) := rfl
  have hch := write_chunks_loop_chain cancelAt
    (list_chunks 65536 (local_data.drop (upload_offset_of local_data remote resume))) 0
    (upload_init_content remote (upload_offset_of local_data remote resume))
    (upload_offset_of local_data remote resume)
  by_cases hcw : (write_file_chunked_resume (upload_remote_init remote)
      local_data 65536 (upload_offset_of local_data remote resume) cancelAt).completed = true
  · simp only [sftp_upload, hcw, if_true]
    refine ⟨?_, trivial⟩
    rw [hw]
    exact hch
  · simp only [sftp_upload, hcw, if_false] at hc
    exact absurd hc (by simp)

/-- Claim C5, witness: a 3-byte upload with no cancellation completes
with a monotone progress sequence and a final event at total. -/
theorem progress_monotone_witness :
    List.Chain' (· ≤ ·) ((sftp_upload [1, 2, 3] none none (fun _ => false)).start_offset ::
      (sftp_upload [1, 2, 3] none none (fun _ => false)).callback_values) ∧
    (sftp_upload [1, 2, 3] none none (fun _ => false)).final_transferred =
      (sftp_upload [1, 2, 3] none none (fun _ => false)).total :=
  progress_monotone [1, 2, 3] none none (fun _ => false) (by decide)

/-- Claim C7, counterexample: two permutations of the same entry set — a
file named a and a file named A, whose case-folded names tie — sort to
different outputs, because the stable sort keeps tied entries in input
order; so the output order is not a function of the entry set alone. -/
theorem list_dir_order_not_permutation_invariant :
    list_dir_sort [entryLowerA, entryUpperA] = [entryLowerA, entryUpperA] ∧
    list_dir_sort [entryUpperA, entryLowerA] = [entryUpperA, entryLowerA] ∧
    ([entryLowerA, entryUpperA] : List FileEntry).Perm [entryUpperA, entryLowerA] ∧
    list_dir_sort [entryLowerA, entryUpperA] ≠ list_dir_sort [entryUpperA, entryLowerA] := by
  have h1 : list_dir_sort [entryLowerA, entryUpperA] = [entryLowerA, entryUpperA] := by
    apply List.mergeSort_of_sorted
    simp [entry_cmp_le, entryLowerA, entryUpperA]
    decide
  have h2 : list_dir_sort [entryUpperA, entryLowerA] = [entryUpperA, entryLowerA] := by
    apply List.mergeSort_of_sorted
    simp [entry_cmp_le, entryLowerA, entryUpperA]
    decide
  refine ⟨h1, h2, List.Perm.swap _ _ _, ?_⟩
  rw [h1, h2]
  decide

/-- Claim C7, amended: list_dir sorting puts every directory before every
file, orders each kind group by case-folded name, and returns a
permutation of its input; the output is a function of the input sequence,
but permutations of the input may reorder entries that tie on kind and
case-folded name (the stable sort keeps those in input order). -/
theorem list_dir_sorted_perm (l : List FileEntry) :
    (list_dir_sort l).Pairwise (fun a b =>
      (a.is_dir = true ∧ b.is_dir = false) ∨
      (a.is_dir = b.is_dir ∧ lower_name a.name ≤ lower_name b.name)) ∧
    (list_dir_sort l).Pairwise (fun a b => b.is_dir = true → a.is_dir = true) ∧
    (list_dir_sort l).Perm l := by
  have h := List.sorted_mergeSort entry_cmp_le_trans entry_cmp_le_total l
  refine ⟨?_, ?_, List.mergeSort_perm l entry_cmp_le⟩
  · refine h.imp ?_
    intro a b hab
    revert hab
    unfold entry_cmp_le
    cases ha : a.is_dir <;> cases hb : b.is_dir <;> simp_all
  · refine h.imp ?_
    intro a b hab
    revert hab
    unfold entry_cmp_le
    cases ha : a.is_dir <;> cases hb : b.is_dir <;> simp_all
